import Mathlib

/-!
# Verification of the pytimeode evolvers against their specification

This file gives a shallow embedding of the core of the `pytimeode` package
(`pytimeode/evolvers.py` and `pytimeode/interfaces.py`) and proves, or
refutes, the specification claims about it.

Modelling conventions:

* State arrays are modelled element-wise: every arithmetic operation the
  evolvers perform on a state (`axpy`, `scale`, `copy_from`, the numexpr
  expressions) acts independently and identically on each array element, so a
  single rational number faithfully represents one element of a state, and
  exact rational arithmetic (`ℚ`) represents the algebra the code performs
  (the code's floating point is the spec's "within tolerance").
* The user-supplied derivative `compute_dy` is an arbitrary function
  `f : ℚ → ℚ → ℚ` of time and state; the split propagators `apply_exp_K`,
  `apply_exp_V` and `get_potentials` are arbitrary functions bundled in
  `SplitProblem`.
* In-place mutation becomes explicit state threading; Python exceptions
  become `Except` values carrying the evolver state as mutated at raise time.
* Allocation of a new state (`copy()` / `empty()` in the source) is counted
  by the `nalloc` field where a claim is about memory behaviour.
-/

/-! ## Split-operator evolver (`EvolverSplit`, evolvers.py lines 115-220) -/

/-- The problem data consumed by `EvolverSplit`: the propagators of the
`IStateForSplitEvolvers` / `IStatePotentialsForSplitEvolvers` interfaces,
acting element-wise on states modelled as `ℚ`.  `apply_exp_V` takes
`Option ℚ` for its `state` argument (`none` models `state=None` in the
linear branch).  `linear` is the state's `linear` attribute and
`use_nonlinear_potentials` records whether the state provides the
`IStatePotentialsForSplitEvolvers` specialization (decided in
`EvolverSplit.__init__`, lines 136-143). -/
structure SplitProblem where
  apply_exp_K : ℚ → ℚ → ℚ → ℚ          -- dt, t, y ↦ new y
  apply_exp_V : ℚ → ℚ → Option ℚ → ℚ → ℚ -- dt, t, state, y ↦ new y
  apply_exp_V_pot : ℚ → ℚ → ℚ → ℚ → ℚ    -- dt, t, potentials, y ↦ new y
  get_potentials : ℚ → ℚ → ℚ             -- t, y ↦ potentials
  normalize : ℚ → ℚ
  linear : Bool
  use_nonlinear_potentials : Bool

/-- The mutable data of an `EvolverSplit` instance: the owned state `y`
(one element of it), the state's time attribute `y.t` (`yt`), the evolver's
time `t` and step `dt`, the persistent scratch state `_nonlinear_tmp_state`
(`tmp`, allocated in `__init__` only on the general nonlinear path), the
`normalize` policy flag, and `nalloc`, a counter of state allocations
(`copy()` / `empty()` calls) performed so far. -/
structure SplitEvolver where
  y : ℚ
  yt : ℚ
  t : ℚ
  dt : ℚ
  tmp : ℚ
  normalizeFlag : Bool
  nalloc : ℕ

/-- `EvolverSplit.__init__` together with `EvolverBase.__init__` and `init`
(evolvers.py lines 41-81 and 133-146): copy the initial state when
`copyFlag` is set (one allocation), set `t`, `dt` and the normalize policy,
set `y.t = t`, and on the general nonlinear path (not linear, no potentials
specialization) allocate the persistent scratch state `_nonlinear_tmp_state
= y.copy()` (one more allocation).  `tmp` is initialized to `y0` on that
path (content of the copy) and is unused on the other paths. -/
def splitInit (p : SplitProblem) (copyFlag : Bool) (y0 t0 dt : ℚ)
    (normalize : Bool) : SplitEvolver :=
  let n0 : ℕ := if copyFlag then 1 else 0
  if p.linear || p.use_nonlinear_potentials then
    { y := y0, yt := t0, t := t0, dt := dt, tmp := 0,
      normalizeFlag := normalize, nalloc := n0 }
  else
    { y := y0, yt := t0, t := t0, dt := dt, tmp := y0,
      normalizeFlag := normalize, nalloc := n0 + 1 }

/-- `EvolverSplit.do_step` (evolvers.py lines 148-216), translated line by
line.  The three potential branches follow the source: linear problems take
one full `exp_V` step; the potentials specialization predicts with `V(t)`
and corrects with `(V1 - V0)/2` (where `V1` is evaluated on the predicted
state); the general nonlinear path builds the averaged predictor in the
scratch state `tmp` (`y1.copy_from(y); y1.apply_exp_V(dt, state=y1);
y1.axpy(y); y1.scale(0.5)`) and corrects `y` with it.  No state is
allocated in `do_step`, so `nalloc` is unchanged. -/
def splitDoStep (p : SplitProblem) (first final : Bool) (e : SplitEvolver) :
    SplitEvolver :=
  let t := e.t
  let dt := e.dt
  let y := e.y
  let y := if first then p.apply_exp_K (dt/2) t y else y
  let t := if first then t + dt/2 else t
  let yv : ℚ × ℚ :=
    if p.linear then
      (p.apply_exp_V dt t none y, e.tmp)
    else if p.use_nonlinear_potentials then
      let V := p.get_potentials t y
      let y := p.apply_exp_V_pot dt t V y
      let V := V - p.get_potentials (t + dt) y
      let V := V * (-(1/2) : ℚ)
      (p.apply_exp_V_pot dt t V y, e.tmp)
    else
      let y1 := y
      let y1 := p.apply_exp_V dt t (some y1) y1
      let y1 := y1 + y
      let y1 := y1 * (1/2)
      (p.apply_exp_V dt t (some y1) y, y1)
  let y := yv.1
  let y := if final then p.apply_exp_K (dt/2) t y
           else p.apply_exp_K dt t y
  let t := if final then t + dt/2 else t + dt
  let y := if e.normalizeFlag then p.normalize y else y
  { y := y, yt := t, t := t, dt := e.dt, tmp := yv.2,
    normalizeFlag := e.normalizeFlag, nalloc := e.nalloc }

/-- `EvolverBase.evolve(steps)` (evolvers.py lines 96-112) specialized to
`EvolverSplit`: one step with `first=True`, `steps - 2` interior steps, one
step with `final=True`, then `self.y.t = self.t`.  (The source asserts
`steps > 1`; theorems about `splitEvolve` carry that hypothesis.) -/
def splitEvolve (p : SplitProblem) (steps : ℕ) (e : SplitEvolver) :
    SplitEvolver :=
  let e1 := splitDoStep p true false e
  let e2 := (splitDoStep p false false)^[steps - 2] e1
  let e3 := splitDoStep p false true e2
  { e3 with yt := e3.t }

/-- Per-step time accounting for the split evolver: an interior step
advances `t` by `dt`, a first step by `3dt/2`, a final step by `dt/2`;
`dt`, the normalize flag and the allocation count never change. -/
theorem splitDoStep_t (p : SplitProblem) (first final : Bool)
    (e : SplitEvolver) :
    (splitDoStep p first final e).t =
      e.t + (if first then e.dt/2 else 0) +
        (if final then e.dt/2 else e.dt) ∧
    (splitDoStep p first final e).dt = e.dt ∧
    (splitDoStep p first final e).nalloc = e.nalloc := by
  cases first <;> cases final <;>
    refine ⟨?_, by simp [splitDoStep], by simp [splitDoStep]⟩ <;>
    simp [splitDoStep] <;> ring

/-- Iterating an interior split step `n` times advances `t` by `n * dt`. -/
theorem splitDoStep_iterate_t (p : SplitProblem) (n : ℕ) (e : SplitEvolver) :
    ((splitDoStep p false false)^[n] e).t = e.t + n * e.dt ∧
    ((splitDoStep p false false)^[n] e).dt = e.dt := by
  induction n generalizing e with
  | zero => simp
  | succ n ih =>
    rw [Function.iterate_succ_apply]
    rcases ih (splitDoStep p false false e) with ⟨h1, h2⟩
    rcases splitDoStep_t p false false e with ⟨g1, g2, _⟩
    constructor
    · rw [h1, g1, g2]
      norm_num
      ring
    · rw [h2, g2]

/-! ## ABM evolver (`EvolverABM`, evolvers.py lines 223-515) -/

/-- The predictor coefficients `self._ap = h/48 * [119, -99, 69, -17]`
from `EvolverABM.init` (evolvers.py line 291). -/
def abm_ap (h : ℚ) : List ℚ :=
  [h/48 * 119, h/48 * (-99), h/48 * 69, h/48 * (-17)]

/-- The corrector coefficient `self._am = (h * 161/48/170) * 17` from
`EvolverABM.init` (evolvers.py lines 292-293). -/
def abm_am (h : ℚ) : ℚ := h * 161/48/170 * 17

/-- The corrector coefficients `self._ac = (h * 161/48/170) *
[-68, 102, -68, 17]` from `EvolverABM.init` (evolvers.py line 294). -/
def abm_ac (h : ℚ) : List ℚ :=
  [h * 161/48/170 * (-68), h * 161/48/170 * 102,
   h * 161/48/170 * (-68), h * 161/48/170 * 17]

/-- The loop `for _i in xrange(4): y.axpy(x=dys[_i], a=coeffs[_i])`
(evolvers.py lines 426-427 and 435-436): accumulate `a * x` over the
paired coefficient and derivative lists into `y`. -/
def axpyFold (coeffs dys : List ℚ) (y : ℚ) : ℚ :=
  (List.zip coeffs dys).foldl (fun acc p => acc + p.1 * p.2) y

/-- The mutable data of an `EvolverABM` instance after `init`: the history
ring (`ys`, `dys`, `dcps`, most recent first), the times, the scratch array
`self._tmp` used by the numexpr path, and the `normalize` policy flag.
One element of each state array is represented by one `ℚ`. -/
structure ABMEvolver where
  ys : List ℚ
  dys : List ℚ
  dcps : List ℚ
  t : ℚ
  dt : ℚ
  tmp : ℚ
  normalizeFlag : Bool

/-- `EvolverABM.do_step_ABM` (evolvers.py lines 412-452) with the
exceptional control flow of the two mid-step derivative computations made
explicit: `f` returns `Except`, and when it raises the function returns
`Except.error` carrying the evolver fields exactly as the Python object
holds them at the moment the exception propagates.  The list locals `ys`,
`dys`, `dcps` alias `self.ys` etc. in the source, so a `pop()` is visible
on `self` immediately; the popped `y` buffer is overwritten in place by the
predictor before the first `get_dy` call.  `self.t` is only assigned at the
very end of the step (line 452), so it is unchanged on either error path. -/
def do_step_ABM_exc (f : ℚ → ℚ → Except Unit ℚ) (nrm : ℚ → ℚ)
    (e : ABMEvolver) : Except ABMEvolver ABMEvolver :=
  let t := e.t
  let dt := e.dt
  let y := (e.ys.getLast?).getD 0          -- y = ys.pop()
  let ys1 := e.ys.dropLast
  let y := y * (1/2)                        -- y *= 0.5
  let y := y + (1/2) * ys1.headI            -- y.axpy(x=ys[0], a=0.5)
  let y := axpyFold (abm_ap dt) e.dys y     -- predictor loop
  let y := y + 1 * e.dcps.headI             -- y.axpy(x=dcps[0], a=1)
  let dcps1 := e.dcps.dropLast              -- dcp = dcps.pop()
  match f (t + dt) y with                   -- dcp = get_dy(y, t+dt, dy=dcp)
  | Except.error _ => Except.error { e with ys := ys1, dcps := dcps1 }
  | Except.ok dm =>
    let dcp := dm * abm_am dt               -- dcp *= self._am
    let dcp := axpyFold (abm_ac dt) e.dys dcp -- corrector loop
    let y := y + 1 * dcp                    -- y.axpy(x=dcp, a=1)
    let y := y + (-1) * dcps1.headI         -- y.axpy(x=dcps[0], a=-1)
    let t1 := t + dt
    let dys1 := e.dys.dropLast              -- dy = dys.pop()
    match f t1 y with                       -- dy = get_dy(y, t, dy=dy)
    | Except.error _ =>
        Except.error { e with ys := ys1, dys := dys1, dcps := dcps1 }
    | Except.ok dy =>
      let y := if e.normalizeFlag then nrm y else y
      Except.ok { ys := y :: ys1, dys := dy :: dys1, dcps := dcp :: dcps1,
                  t := t1, dt := e.dt, tmp := e.tmp,
                  normalizeFlag := e.normalizeFlag }

/-- `EvolverABM.do_step_ABM` for a non-raising derivative `f`: the
`Except`-threaded translation specialised to total `f` (the error branches
are unreachable). -/
def do_step_ABM (f : ℚ → ℚ → ℚ) (nrm : ℚ → ℚ) (e : ABMEvolver) :
    ABMEvolver :=
  match do_step_ABM_exc (fun t y => Except.ok (f t y)) nrm e with
  | Except.ok r => r
  | Except.error r => r

/-- The numexpr expression `m = (y0+y1)/2 + h/48*(119*dy0-99*dy1+69*dy2
-17*dy3) + dcp0` compiled in `EvolverABM.init` (evolvers.py line 299),
applied element-wise by `INumexpr.apply`. -/
def expr_m (h y0 y1 dy0 dy1 dy2 dy3 dcp0 : ℚ) : ℚ :=
  (y0 + y1)/2 + h/48 * (119*dy0 - 99*dy1 + 69*dy2 - 17*dy3) + dcp0

/-- The numexpr expression `dcp = h*161/48/170*(17*dm-68*dy0+102*dy1-68*dy2
+17*dy3)` compiled in `EvolverABM.init` (evolvers.py line 300). -/
def expr_dcp (h dm dy0 dy1 dy2 dy3 : ℚ) : ℚ :=
  h*161/48/170 * (17*dm - 68*dy0 + 102*dy1 - 68*dy2 + 17*dy3)

/-- The numexpr expression `y = m + dcp - dcp0` compiled in
`EvolverABM.init` (evolvers.py lines 310-313). -/
def expr_y (m dcp dcp0 : ℚ) : ℚ := m + dcp - dcp0

/-- `EvolverABM.do_step_ABM_numexpr` (evolvers.py lines 454-501).  When the
numexpr backend is unavailable (`self.numexpr` falsy) the method delegates
to `do_step_ABM` (lines 456-457).  Otherwise the three fused expressions
are evaluated: `m` into the popped `dcps` buffer, `dcp` into the popped
`ys` buffer, the new `y` into `self._tmp` (which then becomes the old `m`
buffer), and — unlike `do_step_ABM` — `normalize` is applied *before* the
new derivative is computed. -/
def do_step_ABM_numexpr (avail : Bool) (f : ℚ → ℚ → ℚ) (nrm : ℚ → ℚ)
    (e : ABMEvolver) : ABMEvolver :=
  if !avail then do_step_ABM f nrm e else
  let t := e.t
  let dt := e.dt
  let y0 := (e.ys.getLast?).getD 0          -- y0 = ys.pop()
  let ys1 := e.ys.dropLast
  let dcps1 := e.dcps.dropLast              -- m = dcps.pop()
  let m := expr_m dt y0 ys1.headI e.dys.headI (e.dys.getD 1 0)
      (e.dys.getD 2 0) (e.dys.getD 3 0) dcps1.headI
  let dm := f (t + dt) m                    -- dm into self._tmp
  let dcp := expr_dcp dt dm e.dys.headI (e.dys.getD 1 0)
      (e.dys.getD 2 0) (e.dys.getD 3 0)     -- dcp into the y0 buffer
  let y := expr_y m dcp dcps1.headI         -- y into the dm buffer
  let y := if e.normalizeFlag then nrm y else y
  let tmp := m                              -- self._tmp = m buffer
  let t1 := t + dt
  let dys1 := e.dys.dropLast                -- dy = dys.pop()
  let dy := f t1 y
  { ys := y :: ys1, dys := dy :: dys1, dcps := dcp :: dcps1,
    t := t1, dt := e.dt, tmp := tmp, normalizeFlag := e.normalizeFlag }

/-- `EvolverABM.do_step_runge_kutta` (evolvers.py lines 338-410), the
memory-frugal 10-array branch actually taken by the source (lines 385-401),
with `get_dy(y, t) = f t y`.  The first derivative is computed and stored
only when `len(dys) < len(ys)`; after the Runge-Kutta update the state is
normalized if requested, `t` advances by `h`, and the new `y` and its
derivative are pushed onto the history ring. -/
def do_step_runge_kutta (f : ℚ → ℚ → ℚ) (nrm : ℚ → ℚ) (e : ABMEvolver) :
    ABMEvolver :=
  let t := e.t
  let h := e.dt
  let y := e.ys.headI                       -- y = ys[0].copy()
  let dydys : ℚ × List ℚ :=
    if e.dys.length < e.ys.length then
      let dy := f t y
      (dy, dy :: e.dys)
    else
      (e.dys.headI, e.dys)
  let dy := dydys.1
  let dys := dydys.2
  let f0 := dy
  let y := y + (h/2) * dy                   -- y.axpy(dy, h/2)
  let f1 := f (t + h/2) y
  let y := y + (-(h/2)) * dy                -- y.axpy(dy, -h/2)
  let y := y + (h/2) * f1                   -- y.axpy(f1, h/2)
  let f2 := f (t + h/2) y
  let y := y + (-(h/2)) * f1                -- y.axpy(f1, -h/2)
  let y := y + h * f2                       -- y.axpy(f2, h)
  let f1 := f1 + (-2) * f2                  -- f1.axpy(f2, -2)
  let f3 := f (t + h) y                     -- f3 = get_dy(y, dy=f2, t+h)
  let y := y + (h/3) * f1                   -- y.axpy(f1, h/3)
  let y := y + (h/6) * f0                   -- y.axpy(f0, h/6)
  let y := y + (h/6) * f3                   -- y.axpy(f3, h/6)
  let y := if e.normalizeFlag then nrm y else y
  let t1 := t + h                           -- self.t += h
  let dy1 := f t1 y                         -- dy = get_dy(y, self.t)
  { e with ys := y :: e.ys, dys := dy1 :: dys, t := t1 }

/-- `EvolverABM.do_step` (evolvers.py lines 322-336): while fewer than 4
derivatives are stored, take a Runge-Kutta bootstrap step, truncate `ys` to
the 2 most recent states, and once exactly 4 derivatives have accumulated
allocate the correction ring as `[0*_y for _y in self.ys]`; otherwise take
a warm step through `do_step_ABM_numexpr` (the call on line 332; the
direct call is commented out in the source). -/
def abmDoStep (avail : Bool) (f : ℚ → ℚ → ℚ) (nrm : ℚ → ℚ)
    (e : ABMEvolver) : ABMEvolver :=
  if e.dys.length < 4 then
    let e1 := do_step_runge_kutta f nrm e
    let e1 := { e1 with ys := e1.ys.take 2 }
    if e1.dys.length == 4 then
      { e1 with dcps := e1.ys.map (fun v => 0 * v) }
    else e1
  else
    do_step_ABM_numexpr avail f nrm e

/-- `EvolverBase.evolve(steps)` (evolvers.py lines 96-112) specialized to
`EvolverABM` (whose `do_step` ignores the `first`/`final` flags): `steps`
calls of `do_step`, then the final `self.y.t = self.t` assignment, whose
assigned value is returned as the second component (the ABM model keeps no
per-buffer `t` attribute; the owned state `ys[0]` receives exactly this
value). -/
def abmEvolve (avail : Bool) (f : ℚ → ℚ → ℚ) (nrm : ℚ → ℚ) (steps : ℕ)
    (e : ABMEvolver) : ABMEvolver × ℚ :=
  let e1 := abmDoStep avail f nrm e
  let e2 := (abmDoStep avail f nrm)^[steps - 2] e1
  let e3 := abmDoStep avail f nrm e2
  (e3, e3.t)

/-- Every ABM `do_step` advances `t` by exactly `dt` and leaves `dt`
unchanged, on the Runge-Kutta bootstrap branch, on the warm numexpr branch
and on the warm direct branch alike. -/
theorem abmDoStep_t (avail : Bool) (f : ℚ → ℚ → ℚ) (nrm : ℚ → ℚ)
    (e : ABMEvolver) :
    (abmDoStep avail f nrm e).t = e.t + e.dt ∧
    (abmDoStep avail f nrm e).dt = e.dt := by
  unfold abmDoStep
  by_cases h : e.dys.length < 4
  · simp only [h, if_true]
    split <;> simp [do_step_runge_kutta]
  · simp only [h, if_false]
    cases avail <;>
      simp [do_step_ABM_numexpr, do_step_ABM, do_step_ABM_exc]

/-- Iterating the ABM `do_step` `n` times advances `t` by `n * dt`. -/
theorem abmDoStep_iterate_t (avail : Bool) (f : ℚ → ℚ → ℚ) (nrm : ℚ → ℚ)
    (n : ℕ) (e : ABMEvolver) :
    ((abmDoStep avail f nrm)^[n] e).t = e.t + n * e.dt ∧
    ((abmDoStep avail f nrm)^[n] e).dt = e.dt := by
  induction n generalizing e with
  | zero => simp
  | succ n ih =>
    rw [Function.iterate_succ_apply]
    rcases ih (abmDoStep avail f nrm e) with ⟨h1, h2⟩
    rcases abmDoStep_t avail f nrm e with ⟨g1, g2⟩
    constructor
    · rw [h1, g1, g2]
      push_cast
      ring
    · rw [h2, g2]

/-- C1: for every initial time `t0`, step `dt` and `steps > 1`, after
`evolve(steps)` on either evolver the final time satisfies
`|t - (t0 + steps*dt)| < 1e-10` (in the exact-arithmetic model the final
time equals `t0 + steps*dt` on the nose), and this final `t` is the value
assigned to the owned state's `t` attribute by `self.y.t = self.t`. -/
theorem c1_time_bookkeeping (p : SplitProblem) (avail : Bool)
    (f : ℚ → ℚ → ℚ) (nrm : ℚ → ℚ) (es : SplitEvolver) (ea : ABMEvolver)
    (steps : ℕ) (hsteps : 1 < steps) :
    ((splitEvolve p steps es).t = es.t + steps * es.dt ∧
     |(splitEvolve p steps es).t - (es.t + steps * es.dt)| < 1/10^10 ∧
     (splitEvolve p steps es).yt = (splitEvolve p steps es).t) ∧
    ((abmEvolve avail f nrm steps ea).1.t = ea.t + steps * ea.dt ∧
     |(abmEvolve avail f nrm steps ea).1.t - (ea.t + steps * ea.dt)|
       < 1/10^10 ∧
     (abmEvolve avail f nrm steps ea).2 =
       (abmEvolve avail f nrm steps ea).1.t) := by
  have hs2 : 2 ≤ steps := hsteps
  constructor
  · have key : (splitEvolve p steps es).t = es.t + steps * es.dt := by
      unfold splitEvolve
      rcases splitDoStep_t p true false es with ⟨a1, a2, _⟩
      rcases splitDoStep_iterate_t p (steps - 2)
        (splitDoStep p true false es) with ⟨b1, b2⟩
      rcases splitDoStep_t p false true
        ((splitDoStep p false false)^[steps - 2]
          (splitDoStep p true false es)) with ⟨c1, _, _⟩
      simp only [c1, b1, b2, a1, a2]
      have hcast : ((steps - 2 : ℕ) : ℚ) = (steps : ℚ) - 2 := by
        push_cast [Nat.cast_sub hs2]
        ring
      rw [hcast]
      norm_num
      ring
    refine ⟨key, ?_, rfl⟩
    rw [key]
    simp
  · have key : (abmEvolve avail f nrm steps ea).1.t =
        ea.t + steps * ea.dt := by
      unfold abmEvolve
      rcases abmDoStep_t avail f nrm ea with ⟨a1, a2⟩
      rcases abmDoStep_iterate_t avail f nrm (steps - 2)
        (abmDoStep avail f nrm ea) with ⟨b1, b2⟩
      rcases abmDoStep_t avail f nrm
        ((abmDoStep avail f nrm)^[steps - 2]
          (abmDoStep avail f nrm ea)) with ⟨c1, c2⟩
      simp only [c1, b1, b2, a1, a2]
      have hcast : ((steps - 2 : ℕ) : ℚ) = (steps : ℚ) - 2 := by
        push_cast [Nat.cast_sub hs2]
        ring
      rw [hcast]
      ring
    refine ⟨key, ?_, rfl⟩
    rw [key]
    simp

/-- A concrete split problem used by witnesses: a linear problem whose
propagators are simple explicit functions. -/
def sampleSplitProblem : SplitProblem :=
  { apply_exp_K := fun dt t y => y + dt * t + 1,
    apply_exp_V := fun dt _ s y => y * (1 + dt) + (Option.getD s 0),
    apply_exp_V_pot := fun dt t v y => y + dt * v * t,
    get_potentials := fun t y => t * y,
    normalize := fun y => y,
    linear := true,
    use_nonlinear_potentials := false }

/-- A concrete general nonlinear split problem (no `linear` flag, no
potentials specialization) used by witnesses. -/
def sampleSplitProblemNL : SplitProblem :=
  { sampleSplitProblem with linear := false }

/-- A concrete split evolver state used by witnesses. -/
def sampleSplitEvolver : SplitEvolver :=
  { y := 2, yt := 5, t := 5, dt := 1/10, tmp := 0,
    normalizeFlag := false, nalloc := 0 }

/-- A concrete warm ABM evolver state used by witnesses. -/
def sampleABMEvolver : ABMEvolver :=
  { ys := [3, 1], dys := [2, -1, 1, 4], dcps := [1/2, -1/3],
    t := 5, dt := 1/10, tmp := 0, normalizeFlag := false }

/-- A concrete derivative function used by witnesses. -/
def sampleF (t y : ℚ) : ℚ := y + t

/-- Witness for C1 at `steps = 3` with concrete problems and evolver
states: the hypothesis `1 < 3` holds and the conclusion evaluates. -/
theorem c1_time_bookkeeping_witness :
    (1 < 3) ∧
    (((splitEvolve sampleSplitProblem 3 sampleSplitEvolver).t =
        sampleSplitEvolver.t + 3 * sampleSplitEvolver.dt ∧
      |(splitEvolve sampleSplitProblem 3 sampleSplitEvolver).t -
        (sampleSplitEvolver.t + 3 * sampleSplitEvolver.dt)| < 1/10^10 ∧
      (splitEvolve sampleSplitProblem 3 sampleSplitEvolver).yt =
        (splitEvolve sampleSplitProblem 3 sampleSplitEvolver).t) ∧
     ((abmEvolve true sampleF id 3 sampleABMEvolver).1.t =
        sampleABMEvolver.t + 3 * sampleABMEvolver.dt ∧
      |(abmEvolve true sampleF id 3 sampleABMEvolver).1.t -
        (sampleABMEvolver.t + 3 * sampleABMEvolver.dt)| < 1/10^10 ∧
      (abmEvolve true sampleF id 3 sampleABMEvolver).2 =
        (abmEvolve true sampleF id 3 sampleABMEvolver).1.t)) :=
  ⟨by norm_num,
   c1_time_bookkeeping sampleSplitProblem true sampleF id
     sampleSplitEvolver sampleABMEvolver 3 (by norm_num)⟩

/-- Closed form of one warm direct ABM step on explicit history lists, for
an arbitrary normalize flag `nf`: the new state, derivative and correction
term in terms of the three fused expressions (which name the same
polynomials the direct code builds with `axpy`).  The stored state is
normalized when `nf` is set, but the stored derivative is computed from
the state *before* normalization (evolvers.py lines 443-447). -/
theorem do_step_ABM_warm (f : ℚ → ℚ → ℚ) (nrm : ℚ → ℚ)
    (v0 v1 d0 d1 d2 d3 c0 c1 t dt tmp : ℚ) (nf : Bool) :
    do_step_ABM f nrm
      { ys := [v0, v1], dys := [d0, d1, d2, d3], dcps := [c0, c1],
        t := t, dt := dt, tmp := tmp, normalizeFlag := nf } =
    { ys := [if nf then
               nrm (expr_y (expr_m dt v1 v0 d0 d1 d2 d3 c0)
                 (expr_dcp dt (f (t + dt) (expr_m dt v1 v0 d0 d1 d2 d3 c0))
                   d0 d1 d2 d3) c0)
             else expr_y (expr_m dt v1 v0 d0 d1 d2 d3 c0)
               (expr_dcp dt (f (t + dt) (expr_m dt v1 v0 d0 d1 d2 d3 c0))
                 d0 d1 d2 d3) c0, v0],
      dys := [f (t + dt) (expr_y (expr_m dt v1 v0 d0 d1 d2 d3 c0)
               (expr_dcp dt (f (t + dt) (expr_m dt v1 v0 d0 d1 d2 d3 c0))
                 d0 d1 d2 d3) c0), d0, d1, d2],
      dcps := [expr_dcp dt (f (t + dt) (expr_m dt v1 v0 d0 d1 d2 d3 c0))
                 d0 d1 d2 d3, c0],
      t := t + dt, dt := dt, tmp := tmp, normalizeFlag := nf } := by
  simp only [do_step_ABM, do_step_ABM_exc, axpyFold, abm_ap, abm_am, abm_ac,
    expr_m, expr_dcp, expr_y, List.zip, List.zipWith, List.foldl,
    List.getLast?_cons_cons, List.getLast?_singleton, List.dropLast,
    List.headI, Option.getD]
  ring_nf

/-- Closed form of one warm numexpr ABM step on explicit history lists,
for an arbitrary normalize flag `nf`: identical to the direct closed form
except that the scratch array `_tmp` comes back holding the `m` buffer and
the stored derivative is computed from the state *after* normalization
(evolvers.py lines 486-496). -/
theorem do_step_ABM_numexpr_warm (f : ℚ → ℚ → ℚ) (nrm : ℚ → ℚ)
    (v0 v1 d0 d1 d2 d3 c0 c1 t dt tmp : ℚ) (nf : Bool) :
    do_step_ABM_numexpr true f nrm
      { ys := [v0, v1], dys := [d0, d1, d2, d3], dcps := [c0, c1],
        t := t, dt := dt, tmp := tmp, normalizeFlag := nf } =
    { ys := [if nf then
               nrm (expr_y (expr_m dt v1 v0 d0 d1 d2 d3 c0)
                 (expr_dcp dt (f (t + dt) (expr_m dt v1 v0 d0 d1 d2 d3 c0))
                   d0 d1 d2 d3) c0)
             else expr_y (expr_m dt v1 v0 d0 d1 d2 d3 c0)
               (expr_dcp dt (f (t + dt) (expr_m dt v1 v0 d0 d1 d2 d3 c0))
                 d0 d1 d2 d3) c0, v0],
      dys := [f (t + dt)
               (if nf then
                 nrm (expr_y (expr_m dt v1 v0 d0 d1 d2 d3 c0)
                   (expr_dcp dt
                     (f (t + dt) (expr_m dt v1 v0 d0 d1 d2 d3 c0))
                     d0 d1 d2 d3) c0)
               else expr_y (expr_m dt v1 v0 d0 d1 d2 d3 c0)
                 (expr_dcp dt (f (t + dt) (expr_m dt v1 v0 d0 d1 d2 d3 c0))
                   d0 d1 d2 d3) c0), d0, d1, d2],
      dcps := [expr_dcp dt (f (t + dt) (expr_m dt v1 v0 d0 d1 d2 d3 c0))
                 d0 d1 d2 d3, c0],
      t := t + dt, dt := dt,
      tmp := expr_m dt v1 v0 d0 d1 d2 d3 c0, normalizeFlag := nf } := by
  simp only [do_step_ABM_numexpr, Bool.not_true, Bool.false_eq_true,
    if_false, List.getLast?_cons_cons, List.getLast?_singleton,
    List.dropLast, List.headI, List.getD, Option.getD, List.get?]

/-- The warm ABM step exactly as claim C2 words it: the predicted state
`m` is formed by applying the predictor coefficients `[119,-99,69,-17]*h/48`
to the 4 stored derivatives and adding the previous correction term
`dcps[0]` — and nothing else; then `dm = f(t+dt, m)`,
`dcp = h*161/(48*170)*(17*dm - 68*dys[0] + 102*dys[1] - 68*dys[2] +
17*dys[3])`, and the new state is `m + dcp - dcps[0]`.  (This transcribes
the claim, not the source: the source also puts the average
`(ys[0]+ys[1])/2` of the two stored states into `m`.) -/
def abm_step_claimed (f : ℚ → ℚ → ℚ) (e : ABMEvolver) : ℚ :=
  let h := e.dt
  let m := h/48 * (119 * e.dys.headI - 99 * e.dys.getD 1 0 +
    69 * e.dys.getD 2 0 - 17 * e.dys.getD 3 0) + e.dcps.headI
  let dm := f (e.t + e.dt) m
  let dcp := h*161/(48*170) * (17*dm - 68 * e.dys.headI +
    102 * e.dys.getD 1 0 - 68 * e.dys.getD 2 0 + 17 * e.dys.getD 3 0)
  m + dcp - e.dcps.headI

/-- A concrete warm ABM evolver refuting C2 as stated: two stored states
`ys = [2, 4]`, zero derivatives and corrections. -/
def c2Input : ABMEvolver :=
  { ys := [2, 4], dys := [0, 0, 0, 0], dcps := [0, 0],
    t := 0, dt := 1, tmp := 0, normalizeFlag := false }

/-- C2 counterexample: with all derivatives and corrections zero and a zero
derivative function, the claim's predicted state (and hence new state) is
`0`, but the code's new state is the average `(2 + 4)/2 = 3` of the two
stored states — the claim omits the `(ys[0]+ys[1])/2` base of the
predictor. -/
theorem c2_counterexample :
    (do_step_ABM (fun _ _ => 0) (fun q => q) c2Input).ys.headI = 3 ∧
    abm_step_claimed (fun _ _ => 0) c2Input = 0 ∧
    (do_step_ABM (fun _ _ => 0) (fun q => q) c2Input).ys.headI ≠
      abm_step_claimed (fun _ _ => 0) c2Input := by
  have h1 : (do_step_ABM (fun _ _ => 0) (fun q => q) c2Input).ys.headI
      = 3 := by
    have hc : c2Input =
        (⟨[2, 4], [0, 0, 0, 0], [0, 0], 0, 1, 0, false⟩ : ABMEvolver) := rfl
    rw [hc, do_step_ABM_warm]
    simp [expr_y, expr_m, expr_dcp, List.headI]
    norm_num
  have h2 : abm_step_claimed (fun _ _ => 0) c2Input = 0 := by
    simp [abm_step_claimed, c2Input]
  exact ⟨h1, h2, by rw [h1, h2]; norm_num⟩

/-- C2 (amended): in the warm ABM state, `do_step_ABM` forms the predicted
state `m` as the average `(ys[0]+ys[1])/2` of the two stored states plus
the predictor coefficients `[119,-99,69,-17]*h/48` applied to the 4 stored
derivatives `dys[0..3]` plus the previous correction term `dcps[0]`; it
computes `dm = f(t+dt, m)`, forms
`dcp = h*161/(48*170)*(17*dm - 68*dys[0] + 102*dys[1] - 68*dys[2] +
17*dys[3])`, and the new state equals `m + dcp - dcps[0]`, with exactly
these rational coefficients. -/
theorem c2_abm_warm_step (f : ℚ → ℚ → ℚ) (nrm : ℚ → ℚ)
    (v0 v1 d0 d1 d2 d3 c0 c1 t dt tmp : ℚ) :
    ∃ m dcp : ℚ,
      m = (v0 + v1)/2 + dt/48 * (119*d0 - 99*d1 + 69*d2 - 17*d3) + c0 ∧
      dcp = dt*161/(48*170) *
        (17 * f (t + dt) m - 68*d0 + 102*d1 - 68*d2 + 17*d3) ∧
      (do_step_ABM f nrm
        { ys := [v0, v1], dys := [d0, d1, d2, d3], dcps := [c0, c1],
          t := t, dt := dt, tmp := tmp,
          normalizeFlag := false }).ys.headI = m + dcp - c0 ∧
      (do_step_ABM f nrm
        { ys := [v0, v1], dys := [d0, d1, d2, d3], dcps := [c0, c1],
          t := t, dt := dt, tmp := tmp,
          normalizeFlag := false }).dcps.headI = dcp := by
  refine ⟨expr_m dt v1 v0 d0 d1 d2 d3 c0,
    expr_dcp dt (f (t + dt) (expr_m dt v1 v0 d0 d1 d2 d3 c0)) d0 d1 d2 d3,
    ?_, ?_, ?_, ?_⟩
  · unfold expr_m; ring
  · unfold expr_dcp; ring
  · rw [do_step_ABM_warm f nrm v0 v1 d0 d1 d2 d3 c0 c1 t dt tmp]
    unfold expr_y
    simp [List.headI]
  · rw [do_step_ABM_warm f nrm v0 v1 d0 d1 d2 d3 c0 c1 t dt tmp]
    simp [List.headI]

/-- A concrete warm ABM evolver with normalization enabled, refuting C4 as
stated: `dt = 0`, states `[1, 3]`, zero derivatives and corrections. -/
def c4Input : ABMEvolver :=
  { ys := [1, 3], dys := [0, 0, 0, 0], dcps := [0, 0],
    t := 0, dt := 0, tmp := 0, normalizeFlag := true }

/-- C4 counterexample: with normalization enabled the two implementations
do not agree.  Both compute the same new state `m + dcp - dcps[0] = 2` and
then store `normalize(2) = 0`, but `do_step_ABM` computes the stored
derivative from the state *before* normalizing (`f(t+dt, 2) = 2`, lines
443-447 of evolvers.py) while `do_step_ABM_numexpr` normalizes first and
then differentiates (`f(t+dt, 0) = 0`, lines 486-496): the stored
derivatives differ, `2 ≠ 0`. -/
theorem c4_counterexample :
    (do_step_ABM (fun _ y => y) (fun _ => 0) c4Input).dys.headI = 2 ∧
    (do_step_ABM_numexpr true (fun _ y => y) (fun _ => 0)
      c4Input).dys.headI = 0 ∧
    (do_step_ABM (fun _ y => y) (fun _ => 0) c4Input).dys.headI ≠
      (do_step_ABM_numexpr true (fun _ y => y) (fun _ => 0)
        c4Input).dys.headI := by
  refine ⟨?_, ?_, ?_⟩
  · norm_num [do_step_ABM, do_step_ABM_exc, c4Input, axpyFold, abm_ap,
      abm_am, abm_ac, List.headI, List.getD]
  · norm_num [do_step_ABM_numexpr, c4Input, expr_m, expr_dcp, expr_y,
      List.headI, List.getD]
  · norm_num [do_step_ABM, do_step_ABM_numexpr, do_step_ABM_exc, c4Input,
      expr_m, expr_dcp, expr_y, axpyFold, abm_ap, abm_am, abm_ac,
      List.headI, List.getD]

/-- C4 (amended): for every warm ABM step with identical history contents
and normalization disabled, the fused implementation
`do_step_ABM_numexpr` produces exactly the same new state, new derivative,
new correction term and time as the direct `do_step_ABM` (in exact
arithmetic — hence certainly within numerical tolerance); with
normalization enabled (any normalize function) the new state, the new
correction term and the time still agree, and only the stored derivative
can differ (direct differentiates before normalizing, fused after — see
the counterexample); and whenever the fusion backend is unavailable it
delegates exactly to `do_step_ABM` on any evolver state whatsoever. -/
theorem c4_numexpr_equivalence (f : ℚ → ℚ → ℚ) (nrm : ℚ → ℚ)
    (v0 v1 d0 d1 d2 d3 c0 c1 t dt tmp : ℚ) (eAny : ABMEvolver) :
    ((do_step_ABM_numexpr true f nrm
        { ys := [v0, v1], dys := [d0, d1, d2, d3], dcps := [c0, c1],
          t := t, dt := dt, tmp := tmp, normalizeFlag := false }).ys =
      (do_step_ABM f nrm
        { ys := [v0, v1], dys := [d0, d1, d2, d3], dcps := [c0, c1],
          t := t, dt := dt, tmp := tmp, normalizeFlag := false }).ys ∧
     (do_step_ABM_numexpr true f nrm
        { ys := [v0, v1], dys := [d0, d1, d2, d3], dcps := [c0, c1],
          t := t, dt := dt, tmp := tmp, normalizeFlag := false }).dys =
      (do_step_ABM f nrm
        { ys := [v0, v1], dys := [d0, d1, d2, d3], dcps := [c0, c1],
          t := t, dt := dt, tmp := tmp, normalizeFlag := false }).dys ∧
     (do_step_ABM_numexpr true f nrm
        { ys := [v0, v1], dys := [d0, d1, d2, d3], dcps := [c0, c1],
          t := t, dt := dt, tmp := tmp, normalizeFlag := false }).dcps =
      (do_step_ABM f nrm
        { ys := [v0, v1], dys := [d0, d1, d2, d3], dcps := [c0, c1],
          t := t, dt := dt, tmp := tmp, normalizeFlag := false }).dcps ∧
     (do_step_ABM_numexpr true f nrm
        { ys := [v0, v1], dys := [d0, d1, d2, d3], dcps := [c0, c1],
          t := t, dt := dt, tmp := tmp, normalizeFlag := false }).t =
      (do_step_ABM f nrm
        { ys := [v0, v1], dys := [d0, d1, d2, d3], dcps := [c0, c1],
          t := t, dt := dt, tmp := tmp, normalizeFlag := false }).t) ∧
    ((do_step_ABM_numexpr true f nrm
        { ys := [v0, v1], dys := [d0, d1, d2, d3], dcps := [c0, c1],
          t := t, dt := dt, tmp := tmp, normalizeFlag := true }).ys =
      (do_step_ABM f nrm
        { ys := [v0, v1], dys := [d0, d1, d2, d3], dcps := [c0, c1],
          t := t, dt := dt, tmp := tmp, normalizeFlag := true }).ys ∧
     (do_step_ABM_numexpr true f nrm
        { ys := [v0, v1], dys := [d0, d1, d2, d3], dcps := [c0, c1],
          t := t, dt := dt, tmp := tmp, normalizeFlag := true }).dcps =
      (do_step_ABM f nrm
        { ys := [v0, v1], dys := [d0, d1, d2, d3], dcps := [c0, c1],
          t := t, dt := dt, tmp := tmp, normalizeFlag := true }).dcps ∧
     (do_step_ABM_numexpr true f nrm
        { ys := [v0, v1], dys := [d0, d1, d2, d3], dcps := [c0, c1],
          t := t, dt := dt, tmp := tmp, normalizeFlag := true }).t =
      (do_step_ABM f nrm
        { ys := [v0, v1], dys := [d0, d1, d2, d3], dcps := [c0, c1],
          t := t, dt := dt, tmp := tmp, normalizeFlag := true }).t) ∧
    do_step_ABM_numexpr false f nrm eAny = do_step_ABM f nrm eAny := by
  refine ⟨?_, ?_, rfl⟩
  · rw [do_step_ABM_warm f nrm v0 v1 d0 d1 d2 d3 c0 c1 t dt tmp false,
      do_step_ABM_numexpr_warm f nrm v0 v1 d0 d1 d2 d3 c0 c1 t dt tmp false]
    refine ⟨rfl, ?_, rfl, rfl⟩
    simp
  · rw [do_step_ABM_warm f nrm v0 v1 d0 d1 d2 d3 c0 c1 t dt tmp true,
      do_step_ABM_numexpr_warm f nrm v0 v1 d0 d1 d2 d3 c0 c1 t dt tmp true]
    exact ⟨rfl, rfl, rfl⟩

/-- The corrector of the general nonlinear split step exactly as claim C3
words it (this definition follows the claim, to be compared against
`splitDoStep`): a predictor `y1` is produced by copying `y` and applying
`apply_exp_V(dt)` to it with itself as the nonlinear reference; `y1` is
replaced by the average `0.5*(y1 + y)`; finally `apply_exp_V(dt,
state=y1)` is applied in place to `y` using this averaged predictor.
Returns the corrected `y` together with the averaged predictor. -/
def splitCorrectorSpec (p : SplitProblem) (dt t y : ℚ) : ℚ × ℚ :=
  let y1 := y
  let y1 := p.apply_exp_V dt t (some y1) y1
  let y1 := (1/2) * (y1 + y)
  (p.apply_exp_V dt t (some y1) y, y1)

/-- The whole split step as claim C3 describes it for the general
nonlinear path: optional first half-kick, the corrector of
`splitCorrectorSpec`, the final kinetic application, optional
normalization.  First component: the new `y`; second: the averaged
predictor left in the scratch state. -/
def splitDoStepSpec (p : SplitProblem) (first final : Bool)
    (e : SplitEvolver) : ℚ × ℚ :=
  let t := e.t
  let dt := e.dt
  let y := e.y
  let y := if first then p.apply_exp_K (dt/2) t y else y
  let t := if first then t + dt/2 else t
  let yy1 := splitCorrectorSpec p dt t y
  let y := if final then p.apply_exp_K (dt/2) t yy1.1
           else p.apply_exp_K dt t yy1.1
  let y := if e.normalizeFlag then p.normalize y else y
  (y, yy1.2)

/-- C3: for a nonlinear state without the potentials specialization, every
`EvolverSplit.do_step` performs the corrector exactly as the claim
describes: predictor by self-referential `apply_exp_V` on a copy of `y`,
averaging `0.5*(y1+y)`, in-place correction of `y` with the averaged
state; and the averaged predictor is what remains in the persistent
scratch state. -/
theorem c3_split_nonlinear_corrector (p : SplitProblem)
    (first final : Bool) (e : SplitEvolver) (hlin : p.linear = false)
    (hpot : p.use_nonlinear_potentials = false) :
    (splitDoStep p first final e).y = (splitDoStepSpec p first final e).1 ∧
    (splitDoStep p first final e).tmp =
      (splitDoStepSpec p first final e).2 := by
  have hcomm : ∀ a b : ℚ, (a + b) * (1/2) = (1/2) * (a + b) := by
    intro a b; ring
  simp only [splitDoStep, splitDoStepSpec, splitCorrectorSpec, hlin, hpot,
    Bool.false_eq_true, if_false]
  rw [hcomm]
  exact ⟨rfl, rfl⟩

/-- Witness for C3 at the concrete general nonlinear sample problem. -/
theorem c3_split_nonlinear_corrector_witness :
    (sampleSplitProblemNL.linear = false ∧
     sampleSplitProblemNL.use_nonlinear_potentials = false) ∧
    ((splitDoStep sampleSplitProblemNL false false sampleSplitEvolver).y =
      (splitDoStepSpec sampleSplitProblemNL false false
        sampleSplitEvolver).1 ∧
     (splitDoStep sampleSplitProblemNL false false sampleSplitEvolver).tmp =
      (splitDoStepSpec sampleSplitProblemNL false false
        sampleSplitEvolver).2) :=
  ⟨⟨rfl, rfl⟩, c3_split_nonlinear_corrector sampleSplitProblemNL
    false false sampleSplitEvolver rfl rfl⟩

/-- A warm ABM evolver used as the failing input for C5: two stored
states, four derivatives, two correction terms. -/
def c5Input : ABMEvolver :=
  { ys := [1, 2], dys := [0, 0, 0, 0], dcps := [0, 0],
    t := 0, dt := 1, tmp := 0, normalizeFlag := false }

/-- C5 (evidence of the divergence): when the mid-step derivative
computation raises during a warm ABM step, the history ring IS left with
popped-but-unrestored entries, contrary to the claim.  Concretely, on
`c5Input` with a raising derivative, the step propagates the exception
with `ys` and `dcps` each shortened from 2 entries to 1 (the `pop()` calls
on lines 422 and 430 of evolvers.py are never undone, and the popped `ys`
buffer has already been overwritten in place by the predictor), so the
evolver's history is NOT exactly as it was before the step began. -/
theorem c5_ring_not_restored :
    do_step_ABM_exc (fun _ _ => Except.error ()) (fun q => q) c5Input =
      Except.error { ys := [1], dys := [0, 0, 0, 0], dcps := [0],
                     t := 0, dt := 1, tmp := 0, normalizeFlag := false } ∧
    c5Input.ys.length = 2 ∧ c5Input.dcps.length = 2 ∧
    ({ ys := [1], dys := [0, 0, 0, 0], dcps := [0], t := 0, dt := 1,
       tmp := 0, normalizeFlag := false } : ABMEvolver).ys.length = 1 ∧
    ({ ys := [1], dys := [0, 0, 0, 0], dcps := [0], t := 0, dt := 1,
       tmp := 0, normalizeFlag := false } : ABMEvolver).ys ≠ c5Input.ys := by
  refine ⟨rfl, rfl, rfl, rfl, by decide⟩

/-! ## State mixins (`interfaces.py`) -/

/-- A state of `ArrayStateMixin` (interfaces.py lines 402-501): one data
array (here a list of rationals), the numpy `data.flags.writeable` flag
(the mixin's `writeable` property reads and writes exactly this flag,
lines 413-422), and the time attribute `t`. -/
structure ArrayState where
  data : List ℚ
  writeable : Bool
  t : ℚ

/-- `ArrayStateMixin.axpy` (interfaces.py lines 460-463): `assert
self.writeable`, then `self.data += a * x.data`.  The assert is the first
statement, so when it raises no mutation has happened. -/
def ArrayState.axpy (s x : ArrayState) (a : ℚ) : Except Unit ArrayState :=
  if s.writeable then
    Except.ok
      { s with data := (s.data.zip x.data).map (fun q => q.1 + a * q.2) }
  else Except.error ()

/-- `ArrayStateMixin.scale` (interfaces.py lines 465-468): `assert
self.writeable`, then `self.data *= f`. -/
def ArrayState.scale (s : ArrayState) (f : ℚ) : Except Unit ArrayState :=
  if s.writeable then
    Except.ok { s with data := s.data.map (fun q => q * f) }
  else Except.error ()

/-- `ArrayStateMixin.__setitem__` (interfaces.py lines 499-501):
`self.data[key] = value` writes into the numpy array; numpy raises
`ValueError` and leaves the array unchanged when `flags.writeable` is
false (the array-library contract the mixin's `writeable` property is
built on). -/
def ArrayState.setitem (s : ArrayState) (i : ℕ) (v : ℚ) :
    Except Unit ArrayState :=
  if s.writeable then Except.ok { s with data := s.data.set i v }
  else Except.error ()

/-- A state of `ArraysStateMixin` (interfaces.py lines 504-556): a list of
data arrays and the per-array numpy writeable flags. -/
structure ArraysState where
  data : List (List ℚ)
  wflags : List Bool

/-- The `writeable` property of `StatesMixin` (interfaces.py lines
379-390): the conjunction of all component flags. -/
def ArraysState.writeable (s : ArraysState) : Bool :=
  s.wflags.all (fun b => b)

/-- `ArraysStateMixin.axpy` (interfaces.py lines 539-545): `assert
self.writeable`, then `self[key].__iadd__(a * x[key])` for every key. -/
def ArraysState.axpy (s x : ArraysState) (a : ℚ) :
    Except Unit ArraysState :=
  if s.writeable then
    Except.ok
      { s with data := ((s.data.zip x.data).map
          (fun q => (q.1.zip q.2).map (fun r => r.1 + a * r.2))) }
  else Except.error ()

/-- `ArraysStateMixin.scale` (interfaces.py lines 547-551): `assert
self.writeable`, then `self[key].__imul__(f)` for every key. -/
def ArraysState.scale (s : ArraysState) (f : ℚ) : Except Unit ArraysState :=
  if s.writeable then
    Except.ok { s with data := s.data.map (fun q => q.map (fun r => r * f)) }
  else Except.error ()

/-- Direct element assignment into a component array of an
`ArraysStateMixin` state (`state[key][...] = v`, through `__getitem__` of
interfaces.py lines 353-358 followed by a numpy in-place write): guarded
by that component's numpy writeable flag. -/
def ArraysState.setitem_elem (s : ArraysState) (key i : ℕ) (v : ℚ) :
    Except Unit ArraysState :=
  if s.wflags.getD key false then
    Except.ok
      { s with data := s.data.set key ((s.data.getD key []).set i v) }
  else Except.error ()

/-- The caller's view of an in-place operation after it returns or raises:
the mutated state on success, the original object when the exception
propagated before any mutation took place. -/
def runOp {α : Type} (r : Except Unit α) (s : α) : α :=
  match r with
  | Except.ok s' => s'
  | Except.error _ => s

/-- In a list of flags all of which are `false`, every indexed lookup with
default `false` yields `false`. -/
theorem allFalseFlag (l : List Bool) (k : ℕ) (h : ∀ fl ∈ l, fl = false) :
    l[k]?.getD false = false := by
  induction l generalizing k with
  | nil => simp
  | cons a tl ih =>
    cases k with
    | zero =>
      have ha := h a (List.mem_cons_self a tl)
      simp [ha]
    | succ k =>
      simp only [List.getElem?_cons_succ]
      exact ih k (fun fl hfl => h fl (List.mem_cons_of_mem a hfl))

/-- C6: for every state whose writeable flag is false — for the
multi-array mixin with, in addition, every component flag cleared, which
is what the `writeable` setter (interfaces.py lines 392-399) produces —
every call to `axpy`, `scale` or direct element assignment raises
(returns `Except.error`, never a silent no-op), and the state the caller
still holds is unchanged. -/
theorem c6_write_protection (s x : ArrayState) (a f v : ℚ) (i : ℕ)
    (m w : ArraysState) (b g u : ℚ) (key j : ℕ)
    (hs : s.writeable = false) (hm : m.writeable = false)
    (hflags : ∀ fl ∈ m.wflags, fl = false) :
    (s.axpy x a = Except.error () ∧ runOp (s.axpy x a) s = s) ∧
    (s.scale f = Except.error () ∧ runOp (s.scale f) s = s) ∧
    (s.setitem i v = Except.error () ∧ runOp (s.setitem i v) s = s) ∧
    (m.axpy w b = Except.error () ∧ runOp (m.axpy w b) m = m) ∧
    (m.scale g = Except.error () ∧ runOp (m.scale g) m = m) ∧
    (m.setitem_elem key j u = Except.error () ∧
      runOp (m.setitem_elem key j u) m = m) := by
  have hkd : m.wflags[key]?.getD false = false :=
    allFalseFlag m.wflags key hflags
  refine ⟨⟨?_, ?_⟩, ⟨?_, ?_⟩, ⟨?_, ?_⟩, ⟨?_, ?_⟩, ⟨?_, ?_⟩, ⟨?_, ?_⟩⟩ <;>
    simp [ArrayState.axpy, ArrayState.scale, ArrayState.setitem,
      ArraysState.axpy, ArraysState.scale, ArraysState.setitem_elem,
      runOp, hs, hm, hkd]

/-- Witness for C6 on concrete locked states: a single-array state with
`writeable = false` and a two-array state with both flags cleared. -/
theorem c6_write_protection_witness :
    (({ data := [1, 2], writeable := false, t := 0 } :
        ArrayState).writeable = false ∧
     ({ data := [[1], [2, 3]], wflags := [false, false] } :
        ArraysState).writeable = false ∧
     (∀ fl ∈ ({ data := [[1], [2, 3]], wflags := [false, false] } :
        ArraysState).wflags, fl = false)) ∧
    (({ data := [1, 2], writeable := false, t := 0 } :
        ArrayState).axpy { data := [5, 5], writeable := true, t := 0 } 2 =
      Except.error () ∧
     runOp (({ data := [1, 2], writeable := false, t := 0 } :
        ArrayState).axpy { data := [5, 5], writeable := true, t := 0 } 2)
       { data := [1, 2], writeable := false, t := 0 } =
       { data := [1, 2], writeable := false, t := 0 }) :=
  ⟨⟨rfl, rfl, by decide⟩,
   (c6_write_protection
      { data := [1, 2], writeable := false, t := 0 }
      { data := [5, 5], writeable := true, t := 0 } 2 3 4 0
      { data := [[1], [2, 3]], wflags := [false, false] }
      { data := [[9], [9, 9]], wflags := [true, true] } 1 2 3 0 0
      rfl rfl (by decide)).1⟩

/-- A state as seen by `EvolverBase.get_dy`: its data (one element) and
its `writeable` flag. -/
structure LState where
  data : ℚ
  writeable : Bool

/-- `EvolverBase.get_dy` (evolvers.py lines 84-94) combined with
`StateMixin.lock` (interfaces.py lines 286-294): save the current
`writeable` flag, clear it, run `compute_dy` on the locked state, and in
the context manager's `finally` block restore the saved flag — also when
`compute_dy` raises, in which case the exception propagates after the
restoration.  `compute_dy` is modelled as an arbitrary function that may
return an updated state; the `IStateForABMEvolvers` contract (and spec
section 4.1) forbids it from mutating `self`, and under the cleared flag
every guarded mutation path raises (see `c6_write_protection`), so the
non-mutation hypothesis of the theorem below is exactly the documented
contract. -/
def get_dy_locked (compute : ℚ → LState → Except Unit (ℚ × LState))
    (t : ℚ) (y : LState) : Except Unit ℚ × LState :=
  let w := y.writeable
  let y1 : LState := { y with writeable := false }
  match compute t y1 with
  | Except.ok r => (Except.ok r.1, { r.2 with writeable := w })
  | Except.error u => (Except.error u, { y1 with writeable := w })

/-- C7: `get_dy` marks the input state read-only for the duration of the
`compute_dy` call (the result is exactly that of `compute_dy` on the
state with `writeable = false`), restores the prior writeable flag
afterwards — also when `compute_dy` raises — and, given the contract that
`compute_dy` does not mutate its input, leaves the input state entirely
unchanged. -/
theorem c7_get_dy_lock_restore
    (compute : ℚ → LState → Except Unit (ℚ × LState)) (t : ℚ) (y : LState)
    (hc : ∀ r : ℚ × LState,
      compute t { y with writeable := false } = Except.ok r →
      r.2.data = y.data) :
    (get_dy_locked compute t y).2.writeable = y.writeable ∧
    (get_dy_locked compute t y).2 = y ∧
    (get_dy_locked compute t y).1 =
      (compute t { y with writeable := false }).map (fun r => r.1) := by
  obtain ⟨yd, yw⟩ := y
  rcases h : compute t { data := yd, writeable := false } with u | r
  · refine ⟨?_, ?_, ?_⟩ <;> simp [get_dy_locked, h, Except.map]
  · have hd := hc r h
    refine ⟨?_, ?_, ?_⟩ <;>
      simp [get_dy_locked, h, Except.map, hd]

/-- Witness for C7: a concrete non-mutating `compute_dy` (doubling the
data) on a concrete writeable state. -/
theorem c7_get_dy_lock_restore_witness :
    (∀ r : ℚ × LState,
      (fun (_ : ℚ) (s : LState) => Except.ok (s.data * 2, s)
        : ℚ → LState → Except Unit (ℚ × LState)) 7
        { data := 3, writeable := false } = Except.ok r →
      r.2.data = ({ data := 3, writeable := true } : LState).data) ∧
    ((get_dy_locked
        (fun _ s => Except.ok (s.data * 2, s)) 7
        { data := 3, writeable := true }).2.writeable =
      ({ data := 3, writeable := true } : LState).writeable ∧
     (get_dy_locked (fun _ s => Except.ok (s.data * 2, s)) 7
        { data := 3, writeable := true }).2 =
      { data := 3, writeable := true } ∧
     (get_dy_locked (fun _ s => Except.ok (s.data * 2, s)) 7
        { data := 3, writeable := true }).1 =
      ((fun (_ : ℚ) (s : LState) => Except.ok (s.data * 2, s)
        : ℚ → LState → Except Unit (ℚ × LState)) 7
        { data := 3, writeable := false }).map (fun r => r.1)) := by
  have hc : ∀ r : ℚ × LState,
      (fun (_ : ℚ) (s : LState) => Except.ok (s.data * 2, s)
        : ℚ → LState → Except Unit (ℚ × LState)) 7
        { data := 3, writeable := false } = Except.ok r →
      r.2.data = ({ data := 3, writeable := true } : LState).data := by
    intro r hr
    cases hr
    rfl
  exact ⟨hc, c7_get_dy_lock_restore (fun _ s => Except.ok (s.data * 2, s))
    7 { data := 3, writeable := true }
    (by intro r hr; cases hr; rfl)⟩

/-- C8: `EvolverSplit` allocates zero extra states beyond `y` itself for
linear problems — construction performs only the optional initial copy
that becomes the owned `y`, and `do_step` never allocates; on the general
nonlinear path (no potentials specialization) exactly one persistent
scratch state is allocated once at construction, and every subsequent
`do_step` allocates nothing, reusing that scratch in place via
`copy_from`. -/
theorem c8_split_memory (p : SplitProblem) (copyFlag : Bool)
    (y0 t0 dt : ℚ) (nrm : Bool) (first final : Bool) (e : SplitEvolver) :
    (p.linear = true →
      (splitInit p copyFlag y0 t0 dt nrm).nalloc =
        (if copyFlag then 1 else 0)) ∧
    (p.linear = false → p.use_nonlinear_potentials = false →
      (splitInit p copyFlag y0 t0 dt nrm).nalloc =
        (if copyFlag then 1 else 0) + 1) ∧
    (splitDoStep p first final e).nalloc = e.nalloc := by
  refine ⟨?_, ?_, (splitDoStep_t p first final e).2.2⟩
  · intro hlin
    simp [splitInit, hlin]
  · intro hlin hpot
    simp [splitInit, hlin, hpot]

/-- Witness for C8: the linear sample problem allocates only the initial
copy; the general nonlinear sample problem allocates exactly one scratch
beyond it; a concrete step preserves the allocation count. -/
theorem c8_split_memory_witness :
    (sampleSplitProblem.linear = true ∧
      (splitInit sampleSplitProblem true 2 0 1 false).nalloc =
        (if true then 1 else 0)) ∧
    (sampleSplitProblemNL.linear = false ∧
      sampleSplitProblemNL.use_nonlinear_potentials = false ∧
      (splitInit sampleSplitProblemNL true 2 0 1 false).nalloc =
        (if true then 1 else 0) + 1) ∧
    (splitDoStep sampleSplitProblemNL false false
      sampleSplitEvolver).nalloc = sampleSplitEvolver.nalloc :=
  ⟨⟨rfl, (c8_split_memory sampleSplitProblem true 2 0 1 false false false
      sampleSplitEvolver).1 rfl⟩,
   ⟨rfl, rfl, (c8_split_memory sampleSplitProblemNL true 2 0 1 false false
      false sampleSplitEvolver).2.1 rfl rfl⟩,
   (c8_split_memory sampleSplitProblemNL true 2 0 1 false false false
      sampleSplitEvolver).2.2⟩

/-! ## State identity model for the `y` accessors -/

/-- A state with an identity: `sid` names the underlying storage buffer
(fresh on every `copy()` / `empty()`), `data` one element of its
contents.  Two references alias exactly when their `sid`s agree. -/
structure IdState where
  sid : ℕ
  data : ℚ

instance : Inhabited IdState := ⟨⟨0, 0⟩⟩

/-- The `EvolverABM` history ring at the identity level.  `dys` and `dcps`
are `Option`s because the `y` setter (evolvers.py lines 507-511) assigns
`None` to both; `nextId` is the next unused buffer identity. -/
structure ABMIdEvolver where
  ys : List IdState
  dys : Option (List IdState)
  dcps : Option (List IdState)
  nextId : ℕ

/-- The `y` property getter of `EvolverABM` (evolvers.py lines 503-505):
`return self.ys[0]` — the ring element itself, no copy, no allocation. -/
def abmIdY (e : ABMIdEvolver) : IdState := e.ys.headI

/-- The `y` property setter of `EvolverABM` (evolvers.py lines 507-511):
`self.ys = [y0]; self.dcps = None; self.dys = None`. -/
def abmIdSetY (y0 : IdState) (e : ABMIdEvolver) : ABMIdEvolver :=
  { e with ys := [y0], dcps := none, dys := none }

/-- The number of stored derivatives (`None` holds none). -/
def storedDys : Option (List IdState) → ℕ
  | none => 0
  | some l => l.length

/-- Whether `EvolverABM.do_step` (evolvers.py line 323) would take the
warm ABM path: only when at least 4 derivatives are stored; with fewer
(or none at all) the evolver is in the bootstrapping state. -/
def abmIsWarm (e : ABMIdEvolver) : Bool := decide (4 ≤ storedDys e.dys)

/-- `EvolverABM.get_y` (evolvers.py lines 513-515): `return
self.y.copy()` — fresh storage with the same contents; the returned copy
gets the fresh identity `nextId`. -/
def abmIdGetY (e : ABMIdEvolver) : IdState × ABMIdEvolver :=
  ({ sid := e.nextId, data := e.ys.headI.data },
   { e with nextId := e.nextId + 1 })

/-- The `EvolverSplit` state at the identity level: the owned `y`, the
persistent scratch state, and the next unused buffer identity. -/
structure SplitIdEvolver where
  y : IdState
  tmp : IdState
  nextId : ℕ

/-- `EvolverSplit.get_y` (evolvers.py lines 218-220): `return
self.y.copy()`. -/
def splitIdGetY (e : SplitIdEvolver) : IdState × SplitIdEvolver :=
  ({ sid := e.nextId, data := e.y.data }, { e with nextId := e.nextId + 1 })

/-- All states an ABM evolver holds internally. -/
def abmHeld (e : ABMIdEvolver) : List IdState :=
  e.ys ++ (e.dys.getD []) ++ (e.dcps.getD [])

/-- All states a split evolver holds internally. -/
def splitHeld (e : SplitIdEvolver) : List IdState := [e.y, e.tmp]

/-- Mutating through a reference with identity `k` updates every aliased
state (same `sid`) and nothing else. -/
def mutateAll (k : ℕ) (g : ℚ → ℚ) (l : List IdState) : List IdState :=
  l.map (fun s => if s.sid = k then { s with data := g s.data } else s)

/-- Well-formedness: every held identity is below `nextId`. -/
def abmWf (e : ABMIdEvolver) : Bool :=
  (abmHeld e).all (fun s => decide (s.sid < e.nextId))

/-- Well-formedness: every held identity is below `nextId`. -/
def splitWf (e : SplitIdEvolver) : Bool :=
  (splitHeld e).all (fun s => decide (s.sid < e.nextId))

/-- Mutation through an identity held by none of the listed states leaves
them all unchanged. -/
theorem mutateAll_of_fresh (k : ℕ) (g : ℚ → ℚ) (l : List IdState)
    (h : ∀ s ∈ l, s.sid ≠ k) : mutateAll k g l = l := by
  induction l with
  | nil => rfl
  | cons a tl ih =>
    have ha := h a (List.mem_cons_self a tl)
    simp only [mutateAll, List.map_cons, if_neg ha]
    have htl := ih (fun s hs => h s (List.mem_cons_of_mem a hs))
    simp only [mutateAll] at htl
    rw [htl]

/-- C9: `EvolverABM`'s `y` accessor returns the most-recent ring element
`ys[0]` itself (same identity, not a copy), and assigning a new value to
`y` resets the whole history ring — `ys` becomes `[y0]`, the stored
derivatives and correction terms are dropped (`None`), zero derivatives
remain stored, and the evolver is no longer in the warm state, i.e. it
must bootstrap again. -/
theorem c9_abm_y_accessor (e : ABMIdEvolver) (y0 : IdState) :
    abmIdY e = e.ys.headI ∧
    (abmIdY e).sid = e.ys.headI.sid ∧
    (abmIdSetY y0 e).ys = [y0] ∧
    (abmIdSetY y0 e).dys = none ∧
    (abmIdSetY y0 e).dcps = none ∧
    storedDys (abmIdSetY y0 e).dys = 0 ∧
    abmIsWarm (abmIdSetY y0 e) = false :=
  ⟨rfl, rfl, rfl, rfl, rfl, rfl, rfl⟩

/-- C10: `get_y()` returns a fresh independent copy of the current state
on both evolvers: same contents, an identity aliasing none of the states
the evolver holds afterwards, so mutating the returned object (through
its identity, with any update `g`) leaves every internally held state —
and hence all later evolution results — unchanged. -/
theorem c10_get_y_fresh_copy (ea : ABMIdEvolver) (es : SplitIdEvolver)
    (g : ℚ → ℚ) (ha : abmWf ea = true) (hs : splitWf es = true) :
    ((abmIdGetY ea).1.data = (abmIdY ea).data ∧
     (∀ s ∈ abmHeld (abmIdGetY ea).2, s.sid ≠ (abmIdGetY ea).1.sid) ∧
     mutateAll (abmIdGetY ea).1.sid g (abmHeld (abmIdGetY ea).2) =
       abmHeld (abmIdGetY ea).2) ∧
    ((splitIdGetY es).1.data = es.y.data ∧
     (∀ s ∈ splitHeld (splitIdGetY es).2, s.sid ≠ (splitIdGetY es).1.sid) ∧
     mutateAll (splitIdGetY es).1.sid g (splitHeld (splitIdGetY es).2) =
       splitHeld (splitIdGetY es).2) := by
  have hmema : ∀ s ∈ abmHeld (abmIdGetY ea).2,
      s.sid ≠ (abmIdGetY ea).1.sid := by
    intro s hsmem
    have hlt : decide (s.sid < ea.nextId) = true :=
      List.all_eq_true.mp ha s hsmem
    exact Nat.ne_of_lt (of_decide_eq_true hlt)
  have hmems : ∀ s ∈ splitHeld (splitIdGetY es).2,
      s.sid ≠ (splitIdGetY es).1.sid := by
    intro s hsmem
    have hlt : decide (s.sid < es.nextId) = true :=
      List.all_eq_true.mp hs s hsmem
    exact Nat.ne_of_lt (of_decide_eq_true hlt)
  exact ⟨⟨rfl, hmema,
      mutateAll_of_fresh _ g (abmHeld (abmIdGetY ea).2) hmema⟩,
    ⟨rfl, hmems,
      mutateAll_of_fresh _ g (splitHeld (splitIdGetY es).2) hmems⟩⟩

/-- A concrete well-formed ABM identity evolver for the C10 witness. -/
def sampleABMIdEvolver : ABMIdEvolver :=
  { ys := [⟨0, 5⟩, ⟨1, 6⟩], dys := some [⟨2, 1⟩, ⟨3, 2⟩, ⟨4, 3⟩, ⟨5, 4⟩],
    dcps := some [⟨6, 0⟩, ⟨7, 0⟩], nextId := 8 }

/-- A concrete well-formed split identity evolver for the C10 witness. -/
def sampleSplitIdEvolver : SplitIdEvolver :=
  { y := ⟨0, 5⟩, tmp := ⟨1, 7⟩, nextId := 2 }

/-- Witness for C10 on the concrete well-formed evolvers, with the
mutation doubling the copied data. -/
theorem c10_get_y_fresh_copy_witness :
    (abmWf sampleABMIdEvolver = true ∧
     splitWf sampleSplitIdEvolver = true) ∧
    (((abmIdGetY sampleABMIdEvolver).1.data =
        (abmIdY sampleABMIdEvolver).data ∧
      (∀ s ∈ abmHeld (abmIdGetY sampleABMIdEvolver).2,
        s.sid ≠ (abmIdGetY sampleABMIdEvolver).1.sid) ∧
      mutateAll (abmIdGetY sampleABMIdEvolver).1.sid (fun q => 2 * q)
          (abmHeld (abmIdGetY sampleABMIdEvolver).2) =
        abmHeld (abmIdGetY sampleABMIdEvolver).2) ∧
     ((splitIdGetY sampleSplitIdEvolver).1.data =
        sampleSplitIdEvolver.y.data ∧
      (∀ s ∈ splitHeld (splitIdGetY sampleSplitIdEvolver).2,
        s.sid ≠ (splitIdGetY sampleSplitIdEvolver).1.sid) ∧
      mutateAll (splitIdGetY sampleSplitIdEvolver).1.sid (fun q => 2 * q)
          (splitHeld (splitIdGetY sampleSplitIdEvolver).2) =
        splitHeld (splitIdGetY sampleSplitIdEvolver).2)) :=
  ⟨⟨by decide, by decide⟩,
   c10_get_y_fresh_copy sampleABMIdEvolver sampleSplitIdEvolver
     (fun q => 2 * q) (by decide) (by decide)⟩
